import Mathlib

/-!
Verification of the data pipeline in `GR03A_DataFrame.py` from the
Pre-Hellenic-Colonies-Visualisation repository.

The pipeline has two stages:
* `txt_to_dataframe` — extracts city mentions from raw text lines with the
  Python regex `[A-Z]+[0-9]+\.\s[A-Za-z]+/?[A-Za-z]*?\s?[A-Za-z]*?`, splits
  each match into city code / country code / city name, and resolves the
  country name through a code→name mapping table;
* `create_df_for_viz` — counts cities per country (`value_counts`, which
  sorts by count descending and drops nulls), left-joins capital
  geo-coordinates, drops the literal country "Serbia", assigns a category
  bucket from the count, and builds a `<br>`-separated hover label.

File inputs of the Python code become explicit parameters here:
`rawLines` (the text file's lines), `mapping` (Key/Value rows of the
country-code CSV) and `geo` (CountryName/CapitalLatitude/CapitalLongitude
rows of the geo CSV, coordinates modelled as `Rat` since the code never
computes with them).
-/

namespace GR03A

/-! ### Character classes of the Python regex (ASCII range, which covers the
catalogue's data) -/

/-- `[A-Z]`: code points 65–90. -/
def isUpperC (c : Char) : Bool := 65 ≤ c.toNat && c.toNat ≤ 90

/-- `[a-z]`: code points 97–122. -/
def isLowerC (c : Char) : Bool := 97 ≤ c.toNat && c.toNat ≤ 122

/-- `[A-Za-z]`. -/
def isLetterC (c : Char) : Bool := isUpperC c || isLowerC c

/-- `[0-9]`: code points 48–57. -/
def isDigitC (c : Char) : Bool := 48 ≤ c.toNat && c.toNat ≤ 57

/-- Python `\s` / `str.strip` whitespace, ASCII part:
space, tab, newline, carriage return, vertical tab, form feed. -/
def isSpaceC (c : Char) : Bool :=
  c.toNat == 32 || c.toNat == 9 || c.toNat == 10 || c.toNat == 13 ||
  c.toNat == 11 || c.toNat == 12

/-! ### The regex `[A-Z]+[0-9]+\.\s[A-Za-z]+/?[A-Za-z]*?\s?[A-Za-z]*?`

Backtracking analysis (Python `re` semantics): the four leading atoms are
greedy with no productive backtracking (`[A-Z]+` stops at the first
non-uppercase character; shrinking it can never make `[0-9]+` succeed, and
likewise for `\.` after `[0-9]+`), `[A-Za-z]+` is greedy, `/?` and `\s?`
are greedy single-character options, and the two lazy `[A-Za-z]*?` groups
sit at the end of the pattern with nothing after them to force expansion,
so they always match the empty string.  Hence a match at a position is:
maximal uppercase run, maximal digit run, '.', one whitespace char,
maximal letter run, optional '/', optional one whitespace char. -/

/-- Try the regex at the head of `s`; on success return the matched
characters and the remainder of the input. -/
def matchAt (s : List Char) : Option (List Char × List Char) :=
  let up := s.takeWhile isUpperC
  if up.isEmpty then none else
  let s1 := s.drop up.length
  let dig := s1.takeWhile isDigitC
  if dig.isEmpty then none else
  match s1.drop dig.length with
  | '.' :: c :: s3 =>
    if isSpaceC c then
      let name := s3.takeWhile isLetterC
      if name.isEmpty then none else
      let s4 := s3.drop name.length
      let (slash, s5) :=
        match s4 with
        | '/' :: r => (['/'], r)
        | _ => (([] : List Char), s4)
      let (sp, s6) :=
        match s5 with
        | c2 :: r => if isSpaceC c2 then ([c2], r) else (([] : List Char), s5)
        | _ => (([] : List Char), s5)
      some (up ++ dig ++ '.' :: c :: (name ++ slash ++ sp), s6)
    else none
  | _ => none

/-- `re.findall` scan: try each position left to right; on a match, emit it
and resume after it.  Fuel is the input length; each step consumes at least
one character, so the fuel never runs out on the initial call. -/
def findallFuel : Nat → List Char → List (List Char)
  | 0, _ => []
  | _, [] => []
  | fuel + 1, c :: rest =>
    match matchAt (c :: rest) with
    | some (m, r) => m :: findallFuel fuel r
    | none => findallFuel fuel rest

def findall (s : String) : List String :=
  (findallFuel s.toList.length s.toList).map String.mk

/-! ### Column extraction (`txt_to_dataframe` lines 29–44) -/

/-- Python `str.strip()`. -/
def pyStrip (s : List Char) : List Char :=
  ((s.dropWhile isSpaceC).reverse.dropWhile isSpaceC).reverse

/-- Python `str.split('.')`: split on every dot, keeping empty pieces
(`splitOnDot rest` is never `[]`, so prepending to its head is sound). -/
def splitOnDot : List Char → List (List Char)
  | [] => [[]]
  | c :: rest =>
    let tail := splitOnDot rest
    if c = '.' then [] :: tail
    else (c :: tail.headD []) :: tail.tail

/-- Pandas `.str.extract('([A-Z]+)')`: leftmost maximal uppercase run,
`NaN` (here `none`) when the string has no uppercase letter. -/
def extractUpper (s : List Char) : Option (List Char) :=
  let t := s.dropWhile (fun c => !isUpperC c)
  if t.isEmpty then none else some (t.takeWhile isUpperC)

/-- Python `dict(zip(keys, values))` lookup: later duplicate keys win. -/
def dictLookup (pairs : List (String × α)) (k : String) : Option α :=
  (pairs.reverse.find? (fun p => p.1 == k)).map (·.2)

/-- One row of `clean_df`. -/
structure CityEntry where
  cityCodeAndName : String
  cityCode : String
  countryCode : Option String
  cityName : Option String
  countryName : Option String
  deriving Repr, DecidableEq

/-- Build one `clean_df` row from a matched string (lines 30–32 and 44).
`cityName` is `none` when the match has no dot (pandas `.str.get(1)` gives
`NaN`), which never happens for actual regex matches. -/
def mkEntry (mapping : List (String × String)) (m : String) : CityEntry :=
  let pieces := splitOnDot m.toList
  let code := pyStrip (pieces.headD [])
  let cc := extractUpper m.toList
  { cityCodeAndName := m
    cityCode := String.mk code
    countryCode := cc.map String.mk
    cityName := (pieces.get? 1).map (fun p => String.mk (pyStrip p))
    countryName := cc.bind (fun u => dictLookup mapping (String.mk u)) }

/-- `txt_to_dataframe`, with the two input files as parameters: the text
file's lines and the Key/Value rows of the country-code mapping CSV. -/
def txt_to_dataframe (rawLines : List String) (mapping : List (String × String)) :
    List CityEntry :=
  ((rawLines.map findall).flatten).map (mkEntry mapping)

/-! ### `create_df_for_viz` (lines 49–102) -/

/-- Distinct values of a list in first-appearance order, skipping values
already `seen`. -/
def dedupFirstAux (seen : List String) : List String → List String
  | [] => []
  | x :: rest =>
    if x ∈ seen then dedupFirstAux seen rest
    else x :: dedupFirstAux (x :: seen) rest

/-- Distinct values of a list in first-appearance order (the distinct keys
produced by `value_counts` before its sort). -/
def dedupFirst (xs : List String) : List String := dedupFirstAux [] xs

/-- Descending order on counts, the sort order of pandas `value_counts`. -/
def countGE (a b : String × Nat) : Prop := b.2 ≤ a.2

instance : DecidableRel countGE := fun a b => inferInstanceAs (Decidable (b.2 ≤ a.2))

instance : IsTotal (String × Nat) countGE := ⟨fun a b => Nat.le_total b.2 a.2⟩

instance : IsTrans (String × Nat) countGE := ⟨fun _ _ _ h1 h2 => le_trans h2 h1⟩

/-- Pandas `Series.value_counts()`: one row per distinct non-null value with
its number of occurrences, sorted by count descending (nulls are dropped by
the caller via `filterMap`; tie order is modelled as stable). -/
def value_counts (xs : List String) : List (String × Nat) :=
  List.insertionSort countGE ((dedupFirst xs).map (fun v => (v, xs.count v)))

/-- Row of `city_count_geo_df` after the latitude/longitude joins. -/
structure JoinedRow where
  country : String
  noOfCities : Nat
  latitude : Option Rat
  longitude : Option Rat
  deriving Repr, DecidableEq

/-- `lat_dict` lookup via `.map` (line 68): `NaN` when the country is absent. -/
def lookupLat (geo : List (String × Rat × Rat)) (c : String) : Option Rat :=
  dictLookup (geo.map (fun g => (g.1, g.2.1))) c

/-- `long_dict` lookup via `.map` (line 69). -/
def lookupLong (geo : List (String × Rat × Rat)) (c : String) : Option Rat :=
  dictLookup (geo.map (fun g => (g.1, g.2.2))) c

def mkJoined (geo : List (String × Rat × Rat)) (p : String × Nat) : JoinedRow :=
  { country := p.1
    noOfCities := p.2
    latitude := lookupLat geo p.1
    longitude := lookupLong geo p.1 }

/-- The left-join step (lines 68–69): attach coordinates to every count row,
dropping nothing. -/
def withGeo (geo : List (String × Rat × Rat)) (counts : List (String × Nat)) :
    List JoinedRow :=
  counts.map (mkJoined geo)

/-- `assign_category` (lines 75–92), verbatim boundary logic. -/
def assign_category (value : Nat) : String :=
  if value > 90 then "90+ colonies"
  else if value > 60 ∧ value < 90 then "60 - 90 colonies"
  else if value > 30 ∧ value < 60 then "30 - 60 colonies"
  else if value > 10 ∧ value < 20 then "10 - 20 colonies"
  else "Less than 10 colonies"

/-- Final row of `city_count_geo_df`. -/
structure SummaryRow where
  country : String
  noOfCities : Nat
  latitude : Option Rat
  longitude : Option Rat
  category : String
  traceText : String
  deriving Repr, DecidableEq

/-- Category assignment (line 95) and `Trace_Text` composition (lines 98–99). -/
def finishRow (r : JoinedRow) : SummaryRow :=
  { country := r.country
    noOfCities := r.noOfCities
    latitude := r.latitude
    longitude := r.longitude
    category := assign_category r.noOfCities
    traceText := r.country ++ "<br>" ++ toString r.noOfCities ++ " colonies" }

/-- The aggregation stage applied to an already-extracted city table:
count per country (nulls dropped), join geo, drop the literal "Serbia" row
(line 72), then assign category and hover text. -/
def aggregate (geo : List (String × Rat × Rat)) (clean : List CityEntry) :
    List SummaryRow :=
  let counts := value_counts (clean.filterMap (·.countryName))
  ((withGeo geo counts).filter (fun r => r.country != "Serbia")).map finishRow

/-- Same stage without the Serbia exclusion (used to state what exactly the
exclusion removes). -/
def aggregateNoExclusion (geo : List (String × Rat × Rat)) (clean : List CityEntry) :
    List SummaryRow :=
  let counts := value_counts (clean.filterMap (·.countryName))
  (withGeo geo counts).map finishRow

/-- `create_df_for_viz`, with the three input files as parameters. -/
def create_df_for_viz (rawLines : List String) (mapping : List (String × String))
    (geo : List (String × Rat × Rat)) : List SummaryRow :=
  aggregate geo (txt_to_dataframe rawLines mapping)

/-- `create_df_for_viz` with line 72 (the Serbia filter) removed. -/
def create_df_for_viz_noExclusion (rawLines : List String)
    (mapping : List (String × String)) (geo : List (String × Rat × Rat)) :
    List SummaryRow :=
  aggregateNoExclusion geo (txt_to_dataframe rawLines mapping)

/-! ### Concrete inputs used to exercise the pipeline -/

/-- The end-to-end scenario line of the spec. -/
def demoRaw : List String :=
  ["Some prose TR12. Apollonia and IT03. Neapolis/Napoli more text"]

def demoMapping : List (String × String) := [("TR", "Turkey"), ("IT", "Italy")]

/-- Geo table deliberately missing Italy, to exercise the null-coordinate
left-join path. -/
def demoGeo : List (String × Rat × Rat) := [("Turkey", 39, 35)]

/-- The first row `create_df_for_viz demoRaw demoMapping demoGeo` produces. -/
def demoTurkeyRow : SummaryRow :=
  { country := "Turkey"
    noOfCities := 1
    latitude := some 39
    longitude := some 35
    category := "Less than 10 colonies"
    traceText := "Turkey<br>1 colonies" }

/-- Input whose first-appearance country order (Turkey, Italy) differs from
the count order (Italy has two cities). -/
def demoRaw2 : List String := ["TR01. Alpha IT02. Beta IT03. Gamma"]

/-- Input with a city code whose country code "XX" has no mapping entry. -/
def demoRaw3 : List String := ["XX99. Atlantis and TR12. Apollonia"]

end GR03A

namespace GR03A

/-! ### Theorems about the pipeline -/

/-- **C1.** Every CountrySummary row's category comes from `assign_category`
applied to its count, and `assign_category` realises the exact broken
boundary rule: 90 ↦ "Less than 10 colonies", 91 ↦ "90+ colonies",
25 ↦ "Less than 10 colonies", 15 ↦ "10 - 20 colonies",
9 ↦ "Less than 10 colonies"; counts of exactly 90, 60, 30, 20, 10 and every
count in [20,30] fall to the default bucket. -/
theorem c1_category_boundaries :
    (∀ (raw : List String) (mapping : List (String × String))
        (geo : List (String × Rat × Rat)) (row : SummaryRow),
        row ∈ create_df_for_viz raw mapping geo →
        row.category = assign_category row.noOfCities) ∧
    (∀ v : Nat, 20 ≤ v → v ≤ 30 → assign_category v = "Less than 10 colonies") ∧
    assign_category 90 = "Less than 10 colonies" ∧
    assign_category 91 = "90+ colonies" ∧
    assign_category 25 = "Less than 10 colonies" ∧
    assign_category 15 = "10 - 20 colonies" ∧
    assign_category 9 = "Less than 10 colonies" ∧
    assign_category 60 = "Less than 10 colonies" ∧
    assign_category 30 = "Less than 10 colonies" ∧
    assign_category 20 = "Less than 10 colonies" ∧
    assign_category 10 = "Less than 10 colonies" := by
  refine ⟨?_, ?_, by decide, by decide, by decide, by decide, by decide, by decide,
    by decide, by decide, by decide⟩
  · intro raw mapping geo row h
    simp only [create_df_for_viz, aggregate, List.mem_map] at h
    obtain ⟨r, _, rfl⟩ := h
    rfl
  · intro v h1 h2
    unfold assign_category
    rw [if_neg (by omega), if_neg (by omega), if_neg (by omega), if_neg (by omega)]

/-- Witness for C1 at the end-to-end demo input and at count 22. -/
theorem c1_category_boundaries_witness :
    demoTurkeyRow.category = assign_category demoTurkeyRow.noOfCities ∧
    assign_category 22 = "Less than 10 colonies" :=
  ⟨c1_category_boundaries.1 demoRaw demoMapping demoGeo demoTurkeyRow (by decide),
   c1_category_boundaries.2.1 22 (by decide) (by decide)⟩

/-- **C2, counterexample.** On the spec's end-to-end line the extractor does
NOT return (Turkey, "Apollonia") and (Italy, "Neapolis/Napoli"): the lazy
quantifiers `[A-Za-z]*?` at the end of the regex match the empty string, so
the alternate name after "/" is never captured. -/
theorem c2_extraction_counterexample :
    ¬ ((txt_to_dataframe demoRaw demoMapping).map (fun e => (e.countryName, e.cityName)) =
      [(some "Turkey", some "Apollonia"), (some "Italy", some "Neapolis/Napoli")]) := by
  decide

/-- **C2, amended.** On the spec's end-to-end line the extractor returns
exactly two rows, (Turkey, "Apollonia") and (Italy, "Neapolis/"): the match
for a slash-joined name ends right after the slash, and a second word of a
two-word name is likewise never part of the match. -/
theorem c2_extraction_amended :
    (txt_to_dataframe demoRaw demoMapping).map (fun e => (e.countryName, e.cityName)) =
      [(some "Turkey", some "Apollonia"), (some "Italy", some "Neapolis/")] := by
  decide

/-- **C6.** Every row's hover text is country ++ "<br>" ++ decimal count ++
" colonies", and in particular a Turkey row with count 98 gets
"Turkey<br>98 colonies". -/
theorem c6_trace_text :
    (∀ (raw : List String) (mapping : List (String × String))
        (geo : List (String × Rat × Rat)) (row : SummaryRow),
        row ∈ create_df_for_viz raw mapping geo →
        row.traceText = row.country ++ "<br>" ++ toString row.noOfCities ++ " colonies") ∧
    (∀ r : JoinedRow, r.country = "Turkey" → r.noOfCities = 98 →
        (finishRow r).traceText = "Turkey<br>98 colonies") := by
  constructor
  · intro raw mapping geo row h
    simp only [create_df_for_viz, aggregate, List.mem_map] at h
    obtain ⟨r, _, rfl⟩ := h
    rfl
  · intro r h1 h2
    show r.country ++ "<br>" ++ toString r.noOfCities ++ " colonies" = _
    rw [h1, h2]
    decide

/-- Witness for C6 at the demo input and at a concrete Turkey/98 row. -/
theorem c6_trace_text_witness :
    demoTurkeyRow.traceText =
      demoTurkeyRow.country ++ "<br>" ++ toString demoTurkeyRow.noOfCities ++ " colonies" ∧
    (finishRow { country := "Turkey", noOfCities := 98,
                 latitude := none, longitude := none }).traceText =
      "Turkey<br>98 colonies" :=
  ⟨c6_trace_text.1 demoRaw demoMapping demoGeo demoTurkeyRow (by decide),
   c6_trace_text.2 { country := "Turkey", noOfCities := 98,
                     latitude := none, longitude := none } rfl rfl⟩

/-- **C9.** The pipeline is a pure function of its three input files: equal
inputs give equal per-city tables and equal CountrySummary tables (same
rows, same order). -/
theorem c9_determinism (raw1 raw2 : List String)
    (mapping1 mapping2 : List (String × String))
    (geo1 geo2 : List (String × Rat × Rat))
    (h1 : raw1 = raw2) (h2 : mapping1 = mapping2) (h3 : geo1 = geo2) :
    txt_to_dataframe raw1 mapping1 = txt_to_dataframe raw2 mapping2 ∧
    create_df_for_viz raw1 mapping1 geo1 = create_df_for_viz raw2 mapping2 geo2 := by
  subst h1
  subst h2
  subst h3
  exact ⟨rfl, rfl⟩

/-- Witness for C9 at the demo input. -/
theorem c9_determinism_witness :
    txt_to_dataframe demoRaw demoMapping = txt_to_dataframe demoRaw demoMapping ∧
    create_df_for_viz demoRaw demoMapping demoGeo =
      create_df_for_viz demoRaw demoMapping demoGeo :=
  c9_determinism demoRaw demoRaw demoMapping demoMapping demoGeo demoGeo rfl rfl rfl

/-- **C4.** The Serbia exclusion removes exactly the rows whose country is
the literal "Serbia": the pipeline's output is the unfiltered pipeline's
output with those rows filtered out (every other row kept unchanged, in
order), and no surviving row is named "Serbia". -/
theorem c4_serbia_exclusion (raw : List String) (mapping : List (String × String))
    (geo : List (String × Rat × Rat)) :
    create_df_for_viz raw mapping geo =
      (create_df_for_viz_noExclusion raw mapping geo).filter
        (fun r => r.country != "Serbia") ∧
    ∀ row ∈ create_df_for_viz raw mapping geo, row.country ≠ "Serbia" := by
  constructor
  · simp only [create_df_for_viz, create_df_for_viz_noExclusion, aggregate,
      aggregateNoExclusion]
    rw [List.filter_map]
    rfl
  · intro row h
    simp only [create_df_for_viz, aggregate, List.mem_map] at h
    obtain ⟨r, hr, rfl⟩ := h
    have := (List.mem_filter.mp hr).2
    simpa using this

/-- Witness for C4 at the demo input. -/
theorem c4_serbia_exclusion_witness : demoTurkeyRow.country ≠ "Serbia" :=
  (c4_serbia_exclusion demoRaw demoMapping demoGeo).2 demoTurkeyRow (by decide)

/-- A `dict` lookup misses when no pair carries the key. -/
theorem dictLookup_eq_none {α : Type} (pairs : List (String × α)) (k : String)
    (h : ∀ p ∈ pairs, p.1 ≠ k) : dictLookup pairs k = none := by
  unfold dictLookup
  have hf : pairs.reverse.find? (fun p => p.1 == k) = none := by
    rw [List.find?_eq_none]
    intro x hx
    simpa using h x (List.mem_reverse.mp hx)
  rw [hf]
  rfl

/-- **C8.** A grouped country absent from the geo table gets `none` for both
coordinates from the left-join, and its row is still present in the joined
table (the join drops nothing; the lookups are total, so nothing is
raised). -/
theorem c8_left_join_nulls (raw : List String) (mapping : List (String × String))
    (geo : List (String × Rat × Rat)) (p : String × Nat)
    (hp : p ∈ value_counts ((txt_to_dataframe raw mapping).filterMap (·.countryName)))
    (habs : ∀ g ∈ geo, g.1 ≠ p.1) :
    lookupLat geo p.1 = none ∧ lookupLong geo p.1 = none ∧
    ({ country := p.1, noOfCities := p.2, latitude := none, longitude := none } :
        JoinedRow) ∈
      withGeo geo (value_counts ((txt_to_dataframe raw mapping).filterMap
        (·.countryName))) := by
  have hlat : lookupLat geo p.1 = none := by
    apply dictLookup_eq_none
    intro q hq
    obtain ⟨g, hg, rfl⟩ := List.mem_map.mp hq
    exact habs g hg
  have hlong : lookupLong geo p.1 = none := by
    apply dictLookup_eq_none
    intro q hq
    obtain ⟨g, hg, rfl⟩ := List.mem_map.mp hq
    exact habs g hg
  refine ⟨hlat, hlong, List.mem_map.mpr ⟨p, hp, ?_⟩⟩
  simp [mkJoined, hlat, hlong]

/-- Witness for C8: Italy is grouped from the demo input but missing from
the demo geo table. -/
theorem c8_left_join_nulls_witness :
    lookupLat demoGeo "Italy" = none ∧ lookupLong demoGeo "Italy" = none ∧
    ({ country := "Italy", noOfCities := 1, latitude := none, longitude := none } :
        JoinedRow) ∈
      withGeo demoGeo (value_counts ((txt_to_dataframe demoRaw demoMapping).filterMap
        (·.countryName))) :=
  c8_left_join_nulls demoRaw demoMapping demoGeo ("Italy", 1) (by decide) (by decide)

/-- **C10.** The summary rows come out sorted in non-increasing order of
city count (inherited from `value_counts`' descending sort), not in
first-appearance order: on an input whose countries first appear as
Turkey, Italy, Italy the output order is Italy before Turkey. -/
theorem c10_sorted_by_count (raw : List String) (mapping : List (String × String))
    (geo : List (String × Rat × Rat)) :
    (create_df_for_viz raw mapping geo).Pairwise
      (fun a b => b.noOfCities ≤ a.noOfCities) ∧
    (create_df_for_viz demoRaw2 demoMapping demoGeo).map (·.country) =
      ["Italy", "Turkey"] ∧
    (txt_to_dataframe demoRaw2 demoMapping).filterMap (·.countryName) =
      ["Turkey", "Italy", "Italy"] := by
  refine ⟨?_, by decide, by decide⟩
  have h1 : (value_counts ((txt_to_dataframe raw mapping).filterMap
      (·.countryName))).Pairwise countGE :=
    List.sorted_insertionSort countGE _
  refine List.pairwise_map.mpr ?_
  refine List.Pairwise.sublist (List.filter_sublist _) ?_
  refine List.pairwise_map.mpr ?_
  exact h1.imp (fun h => h)

/-- Every extracted row's country name is exactly the dictionary lookup of
its country code. -/
theorem mem_txt_countryName (raw : List String) (mapping : List (String × String))
    (e : CityEntry) (he : e ∈ txt_to_dataframe raw mapping) :
    e.countryName = e.countryCode.bind (dictLookup mapping) := by
  simp only [txt_to_dataframe, List.mem_map] at he
  obtain ⟨m, _, rfl⟩ := he
  simp only [mkEntry]
  cases extractUpper m.toList <;> rfl

/-- Removing an element that `f` sends to `none` does not change `filterMap f`. -/
theorem filterMap_erase_of_none {α β : Type} [DecidableEq α] (f : α → Option β)
    (l : List α) (e : α) (hf : f e = none) :
    (l.erase e).filterMap f = l.filterMap f := by
  induction l with
  | nil => rfl
  | cons a l ih =>
    by_cases ha : a = e
    · subst ha
      rw [List.erase_cons_head]
      simp [List.filterMap_cons, hf]
    · rw [List.erase_cons_tail (by simpa using ha)]
      cases hfa : f a <;> simp [List.filterMap_cons, hfa, ih]

/-- **C3.** A city entry whose country code has no mapping entry gets a null
country name (no error is raised: every step is total), and the entry is
absent from the final CountrySummary: erasing it from the extracted table
leaves the aggregation output unchanged. -/
theorem c3_unresolved_code (raw : List String) (mapping : List (String × String))
    (geo : List (String × Rat × Rat)) (e : CityEntry)
    (he : e ∈ txt_to_dataframe raw mapping)
    (hcc : ∀ cc : String, e.countryCode = some cc → dictLookup mapping cc = none) :
    e.countryName = none ∧
    create_df_for_viz raw mapping geo =
      aggregate geo ((txt_to_dataframe raw mapping).erase e) := by
  have h1 : e.countryName = none := by
    rw [mem_txt_countryName raw mapping e he]
    cases hc : e.countryCode with
    | none => rfl
    | some cc => simpa using hcc cc hc
  refine ⟨h1, ?_⟩
  simp only [create_df_for_viz, aggregate]
  rw [filterMap_erase_of_none (·.countryName) (txt_to_dataframe raw mapping) e h1]

/-- Witness for C3: "XX" has no entry in the demo mapping. -/
theorem c3_unresolved_code_witness :
    (mkEntry demoMapping "XX99. Atlantis ").countryName = none ∧
    create_df_for_viz demoRaw3 demoMapping demoGeo =
      aggregate demoGeo ((txt_to_dataframe demoRaw3 demoMapping).erase
        (mkEntry demoMapping "XX99. Atlantis ")) :=
  c3_unresolved_code demoRaw3 demoMapping demoGeo (mkEntry demoMapping "XX99. Atlantis ")
    (by decide)
    (by
      intro cc h
      have hx : (mkEntry demoMapping "XX99. Atlantis ").countryCode = some "XX" := by decide
      rw [hx] at h
      rw [← Option.some.inj h]
      decide)

/-- Membership in `dedupFirstAux`: present in the tail and not already seen. -/
theorem mem_dedupFirstAux (l : List String) (seen : List String) (a : String) :
    a ∈ dedupFirstAux seen l ↔ a ∈ l ∧ a ∉ seen := by
  induction l generalizing seen with
  | nil => simp [dedupFirstAux]
  | cons x rest ih =>
    by_cases hx : x ∈ seen
    · simp only [dedupFirstAux, if_pos hx, ih, List.mem_cons]
      constructor
      · rintro ⟨h1, h2⟩
        exact ⟨Or.inr h1, h2⟩
      · rintro ⟨h1 | h1, h2⟩
        · exact absurd (h1 ▸ hx) h2
        · exact ⟨h1, h2⟩
    · simp only [dedupFirstAux, if_neg hx, List.mem_cons, ih]
      by_cases hax : a = x
      · subst hax
        simp [hx]
      · simp [hax]

/-- `dedupFirstAux` returns a duplicate-free list. -/
theorem nodup_dedupFirstAux (l : List String) (seen : List String) :
    (dedupFirstAux seen l).Nodup := by
  induction l generalizing seen with
  | nil => simp [dedupFirstAux]
  | cons x rest ih =>
    by_cases hx : x ∈ seen
    · simpa [dedupFirstAux, if_pos hx] using ih seen
    · rw [dedupFirstAux, if_neg hx, List.nodup_cons]
      refine ⟨?_, ih _⟩
      rw [mem_dedupFirstAux]
      rintro ⟨-, hn⟩
      exact hn (List.mem_cons_self x seen)

/-- A pair is a `value_counts` row exactly when its key occurs in the input
and its second component is that key's occurrence count. -/
theorem mem_value_counts (xs : List String) (p : String × Nat) :
    p ∈ value_counts xs ↔ p.1 ∈ xs ∧ p.2 = xs.count p.1 := by
  unfold value_counts
  rw [(List.perm_insertionSort countGE _).mem_iff]
  simp only [List.mem_map, dedupFirst, mem_dedupFirstAux, List.not_mem_nil,
    not_false_iff, and_true]
  constructor
  · rintro ⟨v, hv, rfl⟩
    exact ⟨hv, rfl⟩
  · rintro ⟨h1, h2⟩
    obtain ⟨a, b⟩ := p
    simp only at h1 h2
    exact ⟨a, h1, by rw [h2]⟩

/-- The country keys of `value_counts` are duplicate-free. -/
theorem nodup_value_counts_fst (xs : List String) :
    ((value_counts xs).map Prod.fst).Nodup := by
  have hperm := (List.perm_insertionSort countGE
    ((dedupFirst xs).map (fun v => (v, xs.count v)))).map Prod.fst
  unfold value_counts
  rw [hperm.nodup_iff, List.map_map]
  have hid : (Prod.fst ∘ fun v : String => (v, xs.count v)) = id := rfl
  rw [hid, List.map_id]
  exact nodup_dedupFirstAux xs []

/-- The countries of the final table are the non-Serbia `value_counts` keys. -/
theorem aggregate_countries (geo : List (String × Rat × Rat)) (clean : List CityEntry) :
    (aggregate geo clean).map (·.country) =
      ((value_counts (clean.filterMap (·.countryName))).filter
        (fun q => q.1 != "Serbia")).map Prod.fst := by
  simp only [aggregate, withGeo, List.map_map]
  rw [List.filter_map, List.map_map]
  rfl

/-- **C5.** Every summary row has a count of at least 1, no country appears
twice, and the rows correspond exactly to the distinct non-null country
names of the extracted city table minus the excluded "Serbia". -/
theorem c5_summary_invariants (raw : List String) (mapping : List (String × String))
    (geo : List (String × Rat × Rat)) :
    (∀ row ∈ create_df_for_viz raw mapping geo, 1 ≤ row.noOfCities) ∧
    ((create_df_for_viz raw mapping geo).map (·.country)).Nodup ∧
    (∀ c : String, c ∈ (create_df_for_viz raw mapping geo).map (·.country) ↔
      ((∃ e ∈ txt_to_dataframe raw mapping, e.countryName = some c) ∧ c ≠ "Serbia")) := by
  refine ⟨?_, ?_, ?_⟩
  · intro row h
    simp only [create_df_for_viz, aggregate, List.mem_map] at h
    obtain ⟨r, hr, rfl⟩ := h
    have hr2 := (List.mem_filter.mp hr).1
    simp only [withGeo, List.mem_map] at hr2
    obtain ⟨p, hp, rfl⟩ := hr2
    have hm := (mem_value_counts _ p).mp hp
    show 1 ≤ p.2
    rw [hm.2]
    exact List.count_pos_iff.mpr hm.1
  · rw [show create_df_for_viz raw mapping geo =
      aggregate geo (txt_to_dataframe raw mapping) from rfl, aggregate_countries]
    exact (nodup_value_counts_fst _).sublist
      (List.Sublist.map Prod.fst (List.filter_sublist _))
  · intro c
    rw [show create_df_for_viz raw mapping geo =
      aggregate geo (txt_to_dataframe raw mapping) from rfl, aggregate_countries]
    simp only [List.mem_map, List.mem_filter]
    constructor
    · rintro ⟨q, ⟨hq, hsq⟩, rfl⟩
      have hm := (mem_value_counts _ q).mp hq
      have hc := List.mem_filterMap.mp hm.1
      obtain ⟨e, he, hce⟩ := hc
      exact ⟨⟨e, he, hce⟩, by simpa using hsq⟩
    · rintro ⟨⟨e, he, hce⟩, hcs⟩
      refine ⟨(c, ((txt_to_dataframe raw mapping).filterMap (·.countryName)).count c),
        ⟨?_, ?_⟩, rfl⟩
      · exact (mem_value_counts _ _).mpr ⟨List.mem_filterMap.mpr ⟨e, he, hce⟩, rfl⟩
      · simpa using hcs

/-- Spelled-out bounds for `isUpperC`. -/
theorem isUpperC_iff {c : Char} : isUpperC c = true ↔ 65 ≤ c.toNat ∧ c.toNat ≤ 90 := by
  simp [isUpperC]

/-- Spelled-out bounds for `isDigitC`. -/
theorem isDigitC_iff {c : Char} : isDigitC c = true ↔ 48 ≤ c.toNat ∧ c.toNat ≤ 57 := by
  simp [isDigitC]

/-- Spelled-out bounds for `isLetterC`. -/
theorem isLetterC_iff {c : Char} :
    isLetterC c = true ↔
      (65 ≤ c.toNat ∧ c.toNat ≤ 90) ∨ (97 ≤ c.toNat ∧ c.toNat ≤ 122) := by
  simp [isLetterC, isUpperC, isLowerC]

/-- Spelled-out code points for `isSpaceC`. -/
theorem isSpaceC_iff {c : Char} :
    isSpaceC c = true ↔
      c.toNat = 32 ∨ c.toNat = 9 ∨ c.toNat = 10 ∨ c.toNat = 13 ∨
      c.toNat = 11 ∨ c.toNat = 12 := by
  simp only [isSpaceC, Bool.or_eq_true, beq_iff_eq]
  tauto

/-- Uppercase letters are not whitespace. -/
theorem not_space_of_upper {c : Char} (h : isUpperC c = true) : isSpaceC c = false := by
  rw [Bool.eq_false_iff]
  intro hs
  have h1 := isUpperC_iff.mp h
  have h2 := isSpaceC_iff.mp hs
  omega

/-- Digits are not whitespace. -/
theorem not_space_of_digit {c : Char} (h : isDigitC c = true) : isSpaceC c = false := by
  rw [Bool.eq_false_iff]
  intro hs
  have h1 := isDigitC_iff.mp h
  have h2 := isSpaceC_iff.mp hs
  omega

/-- Letters are not whitespace. -/
theorem not_space_of_letter {c : Char} (h : isLetterC c = true) : isSpaceC c = false := by
  rw [Bool.eq_false_iff]
  intro hs
  have h1 := isLetterC_iff.mp h
  have h2 := isSpaceC_iff.mp hs
  omega

/-- Digits are not uppercase letters. -/
theorem not_upper_of_digit {c : Char} (h : isDigitC c = true) : isUpperC c = false := by
  rw [Bool.eq_false_iff]
  intro hu
  have h1 := isDigitC_iff.mp h
  have h2 := isUpperC_iff.mp hu
  omega

/-- Uppercase letters are not dots. -/
theorem ne_dot_of_upper {c : Char} (h : isUpperC c = true) : c ≠ '.' := by
  intro he
  subst he
  exact absurd h (by decide)

/-- Digits are not dots. -/
theorem ne_dot_of_digit {c : Char} (h : isDigitC c = true) : c ≠ '.' := by
  intro he
  subst he
  exact absurd h (by decide)

/-- Letters are not dots. -/
theorem ne_dot_of_letter {c : Char} (h : isLetterC c = true) : c ≠ '.' := by
  intro he
  subst he
  exact absurd h (by decide)

/-- `dropWhile` is the identity when no element satisfies the predicate. -/
theorem dropWhile_eq_self_of_not (p : Char → Bool) (l : List Char)
    (h : ∀ c ∈ l, p c = false) : l.dropWhile p = l := by
  cases l with
  | nil => rfl
  | cons c r => simp [List.dropWhile_cons, h c (List.mem_cons_self c r)]

/-- `pyStrip` is the identity on whitespace-free strings. -/
theorem pyStrip_eq_self (l : List Char) (h : ∀ c ∈ l, isSpaceC c = false) :
    pyStrip l = l := by
  unfold pyStrip
  rw [dropWhile_eq_self_of_not _ _ h,
    dropWhile_eq_self_of_not _ _ (fun c hc => h c (List.mem_reverse.mp hc)),
    List.reverse_reverse]

/-- `pyStrip` removes one leading space in front of a whitespace-free string. -/
theorem pyStrip_space_cons (n : List Char) (h : ∀ c ∈ n, isSpaceC c = false) :
    pyStrip (' ' :: n) = n := by
  unfold pyStrip
  rw [show List.dropWhile isSpaceC (' ' :: n) = List.dropWhile isSpaceC n from rfl,
    dropWhile_eq_self_of_not _ _ h,
    dropWhile_eq_self_of_not _ _ (fun c hc => h c (List.mem_reverse.mp hc)),
    List.reverse_reverse]

/-- `splitOnDot` starting with a dot. -/
theorem splitOnDot_cons_dot (rest : List Char) :
    splitOnDot ('.' :: rest) = [] :: splitOnDot rest := by
  simp [splitOnDot]

/-- `splitOnDot` starting with a non-dot. -/
theorem splitOnDot_cons_ne (c : Char) (rest : List Char) (h : c ≠ '.') :
    splitOnDot (c :: rest) =
      (c :: (splitOnDot rest).headD []) :: (splitOnDot rest).tail := by
  rw [splitOnDot]
  exact if_neg h

/-- A dot-free string is a single `split` piece. -/
theorem splitOnDot_no_dot (l : List Char) (h : '.' ∉ l) : splitOnDot l = [l] := by
  induction l with
  | nil => rfl
  | cons c rest ih =>
    have hc : c ≠ '.' := fun e => h (e ▸ List.mem_cons_self c rest)
    have hr : '.' ∉ rest := fun e => h (List.mem_cons_of_mem c e)
    rw [splitOnDot_cons_ne c rest hc, ih hr]
    rfl

/-- Splitting at the first dot of `x ++ '.' :: y` when `x` is dot-free. -/
theorem splitOnDot_append_dot (x y : List Char) (hx : '.' ∉ x) :
    splitOnDot (x ++ '.' :: y) = x :: splitOnDot y := by
  induction x with
  | nil => simpa using splitOnDot_cons_dot y
  | cons c r ih =>
    have hc : c ≠ '.' := fun e => hx (e ▸ List.mem_cons_self c r)
    have hr : '.' ∉ r := fun e => hx (List.mem_cons_of_mem c e)
    rw [List.cons_append, splitOnDot_cons_ne c _ hc, ih hr]
    rfl

/-- `takeWhile` consumes exactly a satisfying prefix when the next element
(if any) fails the predicate. -/
theorem takeWhile_append_eq (p : Char → Bool) (u v : List Char)
    (h2 : ∀ c ∈ u, p c = true)
    (hv : ∀ hne : v ≠ [], p (v.head hne) = false) :
    (u ++ v).takeWhile p = u := by
  induction u with
  | nil =>
    cases v with
    | nil => rfl
    | cons b w => simpa [List.takeWhile_cons] using hv (by simp)
  | cons a r ih =>
    rw [List.cons_append, List.takeWhile_cons, h2 a (List.mem_cons_self a r)]
    simp only [if_true]
    rw [ih (fun c hc => h2 c (List.mem_cons_of_mem a hc))]

/-- `extractUpper` on an uppercase prefix followed by a non-uppercase
character returns exactly that prefix. -/
theorem extractUpper_append (c : Char) (u v : List Char)
    (h2 : ∀ x ∈ c :: u, isUpperC x = true)
    (hv : ∀ hne : v ≠ [], isUpperC (v.head hne) = false) :
    extractUpper ((c :: u) ++ v) = some (c :: u) := by
  unfold extractUpper
  have hc := h2 c (List.mem_cons_self c u)
  rw [List.cons_append, List.dropWhile_cons]
  rw [hc]
  simp only [Bool.not_true, Bool.false_eq_true, if_false, List.isEmpty_cons,
    if_neg Bool.false_ne_true]
  rw [← List.cons_append, takeWhile_append_eq isUpperC (c :: u) v h2 hv]

/-- **C7.** For any matched string of the shape
uppercase-run ++ digit-run ++ ". " ++ letter-run, the column extraction
yields the code before the dot (trimmed), the name after the dot (trimmed),
and the leading uppercase run as country code. -/
theorem c7_split_correctness (mapping : List (String × String)) (u d n : List Char)
    (hu : u ≠ []) (hu2 : ∀ c ∈ u, isUpperC c = true)
    (hd : d ≠ []) (hd2 : ∀ c ∈ d, isDigitC c = true)
    (hn : n ≠ []) (hn2 : ∀ c ∈ n, isLetterC c = true) :
    (mkEntry mapping (String.mk (u ++ d ++ '.' :: ' ' :: n))).cityCode =
      String.mk (u ++ d) ∧
    (mkEntry mapping (String.mk (u ++ d ++ '.' :: ' ' :: n))).cityName =
      some (String.mk n) ∧
    (mkEntry mapping (String.mk (u ++ d ++ '.' :: ' ' :: n))).countryCode =
      some (String.mk u) := by
  have hlist : (String.mk (u ++ d ++ '.' :: ' ' :: n)).toList =
      u ++ d ++ '.' :: ' ' :: n := rfl
  have hdot_u : '.' ∉ u := fun hmem => ne_dot_of_upper (hu2 '.' hmem) rfl
  have hdot_d : '.' ∉ d := fun hmem => ne_dot_of_digit (hd2 '.' hmem) rfl
  have hdot_n : '.' ∉ n := fun hmem => ne_dot_of_letter (hn2 '.' hmem) rfl
  have hdot_ud : '.' ∉ u ++ d := by
    intro hmem
    rcases List.mem_append.mp hmem with h | h
    · exact hdot_u h
    · exact hdot_d h
  have hsplit : splitOnDot (u ++ d ++ '.' :: ' ' :: n) = [u ++ d, ' ' :: n] := by
    rw [splitOnDot_append_dot (u ++ d) (' ' :: n) hdot_ud]
    rw [splitOnDot_no_dot (' ' :: n) ?hdotn]
    case hdotn =>
      intro hmem
      rcases List.mem_cons.mp hmem with h | h
      · exact absurd h (by decide)
      · exact hdot_n h
  have hsp_ud : ∀ c ∈ u ++ d, isSpaceC c = false := by
    intro c hc
    rcases List.mem_append.mp hc with h | h
    · exact not_space_of_upper (hu2 c h)
    · exact not_space_of_digit (hd2 c h)
  have hsp_n : ∀ c ∈ n, isSpaceC c = false := fun c hc => not_space_of_letter (hn2 c hc)
  have hext : extractUpper (u ++ d ++ '.' :: ' ' :: n) = some u := by
    obtain ⟨c0, u', rfl⟩ := List.exists_cons_of_ne_nil hu
    obtain ⟨c1, d', rfl⟩ := List.exists_cons_of_ne_nil hd
    rw [List.append_assoc]
    exact extractUpper_append c0 u' ((c1 :: d') ++ '.' :: ' ' :: n) hu2
      (fun hne => not_upper_of_digit (hd2 c1 (List.mem_cons_self c1 d')))
  refine ⟨?_, ?_, ?_⟩
  · show String.mk (pyStrip ((splitOnDot
      (String.mk (u ++ d ++ '.' :: ' ' :: n)).toList).headD [])) = _
    rw [hlist, hsplit]
    show String.mk (pyStrip (u ++ d)) = _
    rw [pyStrip_eq_self _ hsp_ud]
  · show (((splitOnDot (String.mk (u ++ d ++ '.' :: ' ' :: n)).toList).get? 1).map
      (fun p => String.mk (pyStrip p))) = _
    rw [hlist, hsplit]
    show some (String.mk (pyStrip (' ' :: n))) = _
    rw [pyStrip_space_cons n hsp_n]
  · show ((extractUpper (String.mk (u ++ d ++ '.' :: ' ' :: n)).toList).map
      String.mk) = _
    rw [hlist, hext]
    rfl

/-- Witness for C7 at the spec's "TR12. Apollonia" instance. -/
theorem c7_split_correctness_witness :
    (mkEntry demoMapping (String.mk (['T', 'R'] ++ ['1', '2'] ++
      '.' :: ' ' :: "Apollonia".toList))).cityCode =
      String.mk (['T', 'R'] ++ ['1', '2']) ∧
    (mkEntry demoMapping (String.mk (['T', 'R'] ++ ['1', '2'] ++
      '.' :: ' ' :: "Apollonia".toList))).cityName =
      some (String.mk "Apollonia".toList) ∧
    (mkEntry demoMapping (String.mk (['T', 'R'] ++ ['1', '2'] ++
      '.' :: ' ' :: "Apollonia".toList))).countryCode =
      some (String.mk ['T', 'R']) :=
  c7_split_correctness demoMapping ['T', 'R'] ['1', '2'] "Apollonia".toList
    (by decide) (by decide) (by decide) (by decide) (by decide) (by decide)

/-- Witness for C5 at the demo input. -/
theorem c5_summary_invariants_witness :
    1 ≤ demoTurkeyRow.noOfCities ∧
    ("Turkey" ∈ (create_df_for_viz demoRaw demoMapping demoGeo).map (·.country) ↔
      ((∃ e ∈ txt_to_dataframe demoRaw demoMapping, e.countryName = some "Turkey") ∧
        "Turkey" ≠ "Serbia")) :=
  ⟨(c5_summary_invariants demoRaw demoMapping demoGeo).1 demoTurkeyRow (by decide),
   (c5_summary_invariants demoRaw demoMapping demoGeo).2.2 "Turkey"⟩

end GR03A
